import Mathlib

/-!
# Verification of the client-side reconciliation and presentation layer

Shallow embedding of the data-handling logic of the Trading-and-Ownership
Data Extractor frontend (`src/frontend/src/App.js` and the PDF-extraction
variant `src/unnamed/part_000`).

Conventions of the embedding:

* JavaScript string values that may be `undefined`/`null` are modelled as
  `Option String`; a plain JS string field is `String`.
* JS truthiness of a string value (`undefined`, `null` and `""` are falsy,
  every other string truthy) is `truthy`.
* `x || ""` on a string-or-undefined value is `jsOrEmpty`.
* `String.prototype.trim` is modelled by `jsTrim` (drop leading and
  trailing whitespace characters).
* `String.prototype.includes` is modelled by `strIncludes`.
* Numbers produced by `parseFloat` are modelled exactly as rationals
  (plus the two infinities); IEEE-754 double rounding is not modelled.
-/

/-- JS truthiness of a possibly-absent string: `undefined`/`null` (here
`none`) and the empty string are falsy, every other string is truthy. -/
def truthy : Option String → Bool
  | some s => s ≠ ""
  | none => false

/-- Read a possibly-absent JS string as a string (absent reads as `""`). -/
def jsStr : Option String → String
  | some s => s
  | none => ""

/-- The JS idiom `x || ""` on a string-or-undefined value. -/
def jsOrEmpty (o : Option String) : String :=
  if truthy o then jsStr o else ""

/-- The JS idiom `x || d` (default string `d`) on a string-or-undefined value. -/
def jsOrDefault (o : Option String) (d : String) : String :=
  if truthy o then jsStr o else d

/-- Whitespace characters recognised by JS `trim` (the common subset:
space, tab, line feed, carriage return, vertical tab, form feed,
no-break space, BOM). -/
def jsWhite (c : Char) : Bool :=
  c = ' ' || c = '\t' || c = '\n' || c = '\r' ||
  c = '\x0b' || c = '\x0c' || c = ' ' || c = '﻿'

/-- Drop leading and trailing JS whitespace from a character list. -/
def jsTrimList (cs : List Char) : List Char :=
  (cs.dropWhile jsWhite).rdropWhile jsWhite

/-- Model of `String.prototype.trim`. -/
def jsTrim (s : String) : String :=
  String.mk (jsTrimList s.data)

/-- `startsWithL n h` holds when the character list `n` is an initial
segment of `h`. -/
def startsWithL : List Char → List Char → Bool
  | [], _ => true
  | _ :: _, [] => false
  | a :: as, b :: bs => a = b && startsWithL as bs

/-- `inclL n h` holds when `n` occurs contiguously inside `h`. -/
def inclL (n : List Char) : List Char → Bool
  | [] => startsWithL n []
  | c :: t => startsWithL n (c :: t) || inclL n t

/-- Model of `s.includes(term)` for JS strings. -/
def strIncludes (s term : String) : Bool :=
  inclL term.data s.data

/-- `SubstringOf t s`: `t` occurs as a contiguous substring of `s`. -/
def SubstringOf (t s : String) : Prop :=
  ∃ pre post : List Char, s.data = pre ++ (t.data ++ post)

/-!
## Data model

`OwnershipRow` models one object of `/foreign_ownership_data.json`;
`EarningsRow` models one cleaned CSV row of the reinvested-earnings
table; `UnifiedRow` models one merged row as built in `fetchData`
(`src/frontend/src/App.js`, lines 111-160 and 831-881).
-/

structure OwnershipRow where
  symbol : Option String
  company_name : Option String
  foreign_ownership : Option String
  max_allowed : Option String
  investor_limit : Option String
deriving DecidableEq

structure EarningsRow where
  company_symbol : Option String
  retained_earnings : Option String
  reinvested_earnings : Option String
  year : Option String
  error : Option String
deriving DecidableEq

/-- The four earnings-side fields stored in the symbol index and copied
into a unified row. -/
structure EarningsFields where
  retained_earnings : String
  reinvested_earnings : String
  year : String
  error : String
deriving DecidableEq

structure UnifiedRow where
  symbol : Option String
  company_name : Option String
  foreign_ownership : Option String
  max_allowed : Option String
  investor_limit : Option String
  retained_earnings : String
  reinvested_earnings : String
  year : String
  error : String
  id : String
deriving DecidableEq

/-- `row.symbol ? row.symbol.toString().trim() : ""` — the trimmed join
key of a row, or `""` when the raw field is falsy. -/
def jsTrimmedSymbol (o : Option String) : String :=
  if truthy o then jsTrim (jsStr o) else ""

/-- The earnings-fields object stored under a symbol key:
`{retained_earnings: row.retained_earnings || "", ...}`. -/
def toEarningsFields (r : EarningsRow) : EarningsFields :=
  { retained_earnings := jsOrEmpty r.retained_earnings
    reinvested_earnings := jsOrEmpty r.reinvested_earnings
    year := jsOrEmpty r.year
    error := jsOrEmpty r.error }

/-- One step of building `earningsMap`: `if (symbol) earningsMap[symbol] = {...}`. -/
def earningsMapStep (m : String → Option EarningsFields) (row : EarningsRow) :
    String → Option EarningsFields :=
  let symbol := jsTrimmedSymbol row.company_symbol
  if symbol ≠ "" then
    fun k => if k = symbol then some (toEarningsFields row) else m k
  else m

/-- `reinvestedEarningsData.forEach(row => { ... earningsMap[symbol] = {...} })`:
the symbol index, with a later occurrence of a symbol overwriting an
earlier one. -/
def buildEarningsMap (rows : List EarningsRow) : String → Option EarningsFields :=
  rows.foldl earningsMapStep (fun _ => none)

/-- One merged row of `fetchData`: all ownership fields are spread into
the result, the four earnings fields come from the index lookup
(`earningsMap[symbol] || {}` followed by `... || ""`), and
`id = symbol + idx`. -/
def mergeRow (emap : String → Option EarningsFields) (idx : Nat) (row : OwnershipRow) :
    UnifiedRow :=
  let symbol := jsTrimmedSymbol row.symbol
  let earningsData := emap symbol
  { symbol := row.symbol
    company_name := row.company_name
    foreign_ownership := row.foreign_ownership
    max_allowed := row.max_allowed
    investor_limit := row.investor_limit
    retained_earnings := jsOrEmpty (earningsData.map EarningsFields.retained_earnings)
    reinvested_earnings := jsOrEmpty (earningsData.map EarningsFields.reinvested_earnings)
    year := jsOrEmpty (earningsData.map EarningsFields.year)
    error := jsOrEmpty (earningsData.map EarningsFields.error)
    id := symbol ++ toString idx }

/-- `foreignOwnershipData.map((row, idx) => ...)` with explicit index
threading. -/
def mergeAll (emap : String → Option EarningsFields) : Nat → List OwnershipRow → List UnifiedRow
  | _, [] => []
  | idx, r :: rs => mergeRow emap idx r :: mergeAll emap (idx + 1) rs

/-- The whole reconciliation of `fetchData`: build the symbol index from
the earnings rows, then merge it into the ownership rows. -/
def fetchMerge (ownership : List OwnershipRow) (earnings : List EarningsRow) :
    List UnifiedRow :=
  mergeAll (buildEarningsMap earnings) 0 ownership

/-- The last earnings row (in input order) whose trimmed symbol equals
`sym`, if any. -/
def lastEarningsMatch (earnings : List EarningsRow) (sym : String) : Option EarningsRow :=
  earnings.foldl
    (fun acc r => if jsTrimmedSymbol r.company_symbol = sym then some r else acc) none

/-- Specification-side join semantics (amended claim C1): the earnings
fields of a unified row with trimmed symbol `sym` are those of the last
earnings record whose trimmed symbol is nonempty and equals `sym`, and
all-empty when no such record exists. -/
def joinedFields (earnings : List EarningsRow) (sym : String) : EarningsFields :=
  match (if sym = "" then none else lastEarningsMatch earnings sym) with
  | some e => toEarningsFields e
  | none => ⟨"", "", "", ""⟩

/-- The ownership part of a unified row. -/
def UnifiedRow.ownPart (u : UnifiedRow) : OwnershipRow :=
  ⟨u.symbol, u.company_name, u.foreign_ownership, u.max_allowed, u.investor_limit⟩

/-- The earnings part of a unified row. -/
def UnifiedRow.earningsPart (u : UnifiedRow) : EarningsFields :=
  ⟨u.retained_earnings, u.reinvested_earnings, u.year, u.error⟩

/-!
## Numbers: `parseFloat` and the sort comparator

JS numbers are modelled exactly: a finite value is a rational (IEEE-754
rounding is not modelled), plus the two infinities. `parseFloat`
returning `NaN` is modelled as `none`.
-/

inductive JsNum where
  | negInf
  | fin (q : ℚ)
  | posInf
deriving DecidableEq

/-- `a ≤ b` on JS numeric values (total order; `NaN` never reaches a
comparison because `|| 0` replaces it first). -/
def JsNum.leb : JsNum → JsNum → Bool
  | JsNum.negInf, _ => true
  | _, JsNum.posInf => true
  | JsNum.fin a, JsNum.fin b => decide (a ≤ b)
  | JsNum.posInf, _ => false
  | JsNum.fin _, JsNum.negInf => false

/-- Split a character list into its leading decimal digits and the rest. -/
def splitDigits : List Char → List Char × List Char
  | [] => ([], [])
  | c :: t =>
    if c.isDigit then
      let p := splitDigits t
      (c :: p.1, p.2)
    else ([], c :: t)

/-- Value of a list of decimal digits. -/
def digitsToNat (ds : List Char) : Nat :=
  ds.foldl (fun n c => 10 * n + (c.toNat - 48)) 0

/-- Parse an optional exponent part `e`/`E` `[+|-]` digits at the start of
`cs`; a missing or malformed exponent contributes `0` (it is simply not
part of the parsed prefix, as in JS `parseFloat`). -/
def parseExp (cs : List Char) : Int :=
  match cs with
  | c :: rest =>
    if c = 'e' ∨ c = 'E' then
      match rest with
      | s :: rest2 =>
        if s = '+' then
          (if (splitDigits rest2).1 = [] then 0 else (digitsToNat (splitDigits rest2).1 : Int))
        else if s = '-' then
          (if (splitDigits rest2).1 = [] then 0 else -(digitsToNat (splitDigits rest2).1 : Int))
        else
          (if (splitDigits (s :: rest2)).1 = [] then 0
           else (digitsToNat (splitDigits (s :: rest2)).1 : Int))
      | [] => 0
    else 0
  | [] => 0

/-- Parse the unsigned mantissa `digits [. digits]` or `. digits` at the
start of `cs`; returns the combined digit value `m`, the number of
fraction digits `f` (the parsed value is `m / 10^f`) and the remaining
characters, or `none` when no numeric prefix exists. -/
def parseMantissa (cs : List Char) : Option (Nat × Nat × List Char) :=
  if (splitDigits cs).1 = [] then
    match (splitDigits cs).2 with
    | '.' :: r2 =>
      if (splitDigits r2).1 = [] then none
      else some (digitsToNat (splitDigits r2).1, (splitDigits r2).1.length, (splitDigits r2).2)
    | _ => none
  else
    match (splitDigits cs).2 with
    | '.' :: r2 =>
      some (digitsToNat (splitDigits cs).1 * 10 ^ (splitDigits r2).1.length
              + digitsToNat (splitDigits r2).1,
            (splitDigits r2).1.length, (splitDigits r2).2)
    | _ => some (digitsToNat (splitDigits cs).1, 0, (splitDigits cs).2)

/-- The rational value `± m / 10^f · 10^e`, built from integer
arithmetic and a single `mkRat` so that it evaluates in the kernel. -/
def decValue (neg : Bool) (m f : Nat) (e : Int) : ℚ :=
  match e with
  | Int.ofNat k =>
    mkRat ((if neg then -(m : Int) else (m : Int)) * ((10 ^ k : Nat) : Int)) (10 ^ f)
  | Int.negSucc k =>
    mkRat (if neg then -(m : Int) else (m : Int)) (10 ^ f * 10 ^ (k + 1))

/-- Parse the part of a float literal after the optional sign. -/
def jsParseSigned (neg : Bool) (cs : List Char) : Option JsNum :=
  if startsWithL "Infinity".data cs then
    some (if neg then JsNum.negInf else JsNum.posInf)
  else
    match parseMantissa cs with
    | some mfr => some (JsNum.fin (decValue neg mfr.1 mfr.2.1 (parseExp mfr.2.2)))
    | none => none

/-- Model of JS `parseFloat`: skip leading whitespace, optional sign,
then the longest valid decimal/`Infinity` prefix; `none` models `NaN`. -/
def jsParseFloat (s : String) : Option JsNum :=
  match s.data.dropWhile jsWhite with
  | '-' :: t => jsParseSigned true t
  | '+' :: t => jsParseSigned false t
  | t => jsParseSigned false t

/-- The JS idiom `parseFloat(x) || 0`: `NaN` (modelled `none`), `0` and
`-0` are falsy and give `0` (`-0` and `0` coincide in `ℚ`); any other
number passes through. -/
def jsNumOrZero : Option JsNum → JsNum
  | none => JsNum.fin 0
  | some n => n

/-- The sort key of `sortByRetainedEarnings`:
`parseFloat(row.retained_earnings) || 0`. -/
def sortKey (row : UnifiedRow) : JsNum :=
  jsNumOrZero (jsParseFloat row.retained_earnings)

/-- Insert a row into an (already descending-sorted) list, before the
first element whose key is `≤` its own key. -/
def insertDescByKey (x : UnifiedRow) : List UnifiedRow → List UnifiedRow
  | [] => [x]
  | y :: ys =>
    if JsNum.leb (sortKey y) (sortKey x) then x :: y :: ys
    else y :: insertDescByKey x ys

/-- Model of `.sort(sortByRetainedEarnings)` where the comparator is
`(a, b) => (parseFloat(b.retained_earnings) || 0) - (parseFloat(a.retained_earnings) || 0)`:
ES2019 `Array.prototype.sort` with a consistent comparator produces the
unique stable descending-by-key permutation, which this insertion sort
computes. -/
def sortByRetainedEarnings : List UnifiedRow → List UnifiedRow
  | [] => []
  | x :: xs => insertDescByKey x (sortByRetainedEarnings xs)

/-!
## Presentation: filter and cell rendering
-/

/-- The filter predicate of `filteredRows`:
`(row.company_name && row.company_name.includes(search)) || (row.symbol && row.symbol.includes(search))`. -/
def rowPassesFilter (search : String) (row : UnifiedRow) : Bool :=
  (truthy row.company_name && strIncludes (jsStr row.company_name) search) ||
  (truthy row.symbol && strIncludes (jsStr row.symbol) search)

/-- `filteredRows` of the evidence-enabled variant: filter by the search
term, then sort by retained earnings. -/
def filteredRows (rows : List UnifiedRow) (search : String) : List UnifiedRow :=
  sortByRetainedEarnings (rows.filter (rowPassesFilter search))

/-- What a cell renders as: the localized "no data" label, a
locale-formatted number, or the raw string verbatim. -/
inductive CellRender where
  | noData
  | numeric (n : JsNum)
  | verbatim (s : String)
deriving DecidableEq

/-- The guard `!value || value === "" || value === "null" || value === "undefined"`
of the earnings `renderCell`. -/
def isNoDataSentinel (value : Option String) : Bool :=
  !(truthy value) || value == some "" || value == some "null" || value == some "undefined"

/-- The `renderCell` of the `retained_earnings` / `reinvested_earnings`
columns: sentinel values render the "no data" label; otherwise a
parseable value renders as a formatted number, any other string renders
verbatim. -/
def renderEarningsCell (value : Option String) : CellRender :=
  if isNoDataSentinel value then CellRender.noData
  else
    match jsParseFloat (jsStr value) with
    | some n => CellRender.numeric n
    | none => CellRender.verbatim (jsStr value)

/-!
## Correction channel
-/

/-- The `updated` payload of a successful correction response. -/
structure UpdatedPayload where
  company_symbol : Option String
  retained_earnings : Option String
  value : Option String
  reinvested_earnings : Option String
  year : Option String
  error : Option String
deriving DecidableEq

/-- The JS idiom `a || b || ''` on string-or-undefined values. -/
def jsOr2Empty (a b : Option String) : String :=
  if truthy a then jsStr a else if truthy b then jsStr b else ""

/-- The match condition of `updateRowAfterCorrection`:
`row.symbol && updated.company_symbol && row.symbol.toString() === updated.company_symbol.toString()`. -/
def rowMatchesCorrection (updated : UpdatedPayload) (row : UnifiedRow) : Bool :=
  truthy row.symbol && truthy updated.company_symbol &&
    (jsStr row.symbol == jsStr updated.company_symbol)

/-- The per-row body of `updateRowAfterCorrection`'s `rows.map`. -/
def patchRow (updated : UpdatedPayload) (row : UnifiedRow) : UnifiedRow :=
  if rowMatchesCorrection updated row then
    { row with
      retained_earnings := jsOr2Empty updated.retained_earnings updated.value
      reinvested_earnings := jsOrEmpty updated.reinvested_earnings
      year := jsOrEmpty updated.year
      error := jsOrEmpty updated.error }
  else row

/-- `window.updateRowAfterCorrection` of the evidence-enabled variant
(`src/frontend/src/App.js`, lines 928-944). -/
def updateRowAfterCorrection (updated : UpdatedPayload) (rows : List UnifiedRow) :
    List UnifiedRow :=
  rows.map (patchRow updated)

/-- Claim-level match condition of a correction patch: the row's symbol
and the payload's target symbol are both present and nonempty, and
equal as strings. -/
def specMatchesCorrection (updated : UpdatedPayload) (row : UnifiedRow) : Prop :=
  truthy row.symbol = true ∧ truthy updated.company_symbol = true ∧
    jsStr row.symbol = jsStr updated.company_symbol

/-!
## Source adapters
-/

/-- Outcome of an asynchronous request as seen by an adapter: a parsed
value, or any failure (network error, non-OK HTTP status, malformed
body / parse error). -/
inductive FetchOutcome (α : Type) where
  | ok (value : α)
  | err

/-- `loadForeignOwnership`: the parsed JSON on success, `[]` on any
failure (the `.catch` returns `[]`). -/
def loadForeignOwnership : FetchOutcome (List OwnershipRow) → List OwnershipRow
  | FetchOutcome.ok v => v
  | FetchOutcome.err => []

/-- Field lookup in a raw header-mapped CSV row (a JS object, keys
unique). -/
def csvField (row : List (String × String)) (key : String) : Option String :=
  (row.find? (fun kv => kv.1 == key)).map Prod.snd

/-- `row[key] ? row[key].trim() : ''`. -/
def cleanCsvValue (v : String) : String :=
  if v ≠ "" then jsTrim v else ""

/-- The per-row cleaning of `loadReinvestedEarnings`: trim every key and
every value. -/
def cleanCsvRow (row : List (String × String)) : List (String × String) :=
  row.map (fun kv => (jsTrim kv.1, cleanCsvValue kv.2))

/-- The row filter of `loadReinvestedEarnings`:
`row.company_symbol && row.company_symbol.trim() !== ''`. -/
def csvRowKept (row : List (String × String)) : Bool :=
  truthy (csvField row "company_symbol") &&
    !(jsTrim (jsStr (csvField row "company_symbol")) == "")

/-- `loadReinvestedEarnings`: keep rows with a nonblank key field, clean
them, and resolve `[]` on an empty parse or any failure. -/
def loadReinvestedEarnings :
    FetchOutcome (List (List (String × String))) → List (List (String × String))
  | FetchOutcome.err => []
  | FetchOutcome.ok data =>
    if data.length > 0 then (data.filter csvRowKept).map cleanCsvRow
    else []

/-!
## File workflow: upload batch and selection
(`src/unnamed/part_000`, `handleFileUpload` lines 416-475 and
`handleFileSelection` lines 388-413.)
-/

/-- One per-file entry of the `upload_multiple_pdfs` response. -/
structure FileResult where
  filename : String
  success : Bool
  data : Option (List (String × String))
  error : Option String
  screenshot_paths : Option (List String)
deriving DecidableEq

/-- The body of the `upload_multiple_pdfs` response. -/
structure BatchResponse where
  success : Bool
  error : Option String
  total_files : Nat
  successful_uploads : Nat
  results : List FileResult
deriving DecidableEq

/-- One row of the PDF-extraction table (`pdfColumns`). -/
structure PdfColumn where
  filename : String
  data : Option (List (String × String))
  screenshot_path : Option String
  error : Option String
deriving DecidableEq

/-- `fileResult.screenshot_paths && fileResult.screenshot_paths.length > 0 ? fileResult.screenshot_paths[0] : null`. -/
def jsHeadScreenshot : Option (List String) → Option String
  | some (h :: _) => some h
  | some [] => none
  | none => none

def extractionFailMsg : String := "فشل في الاستخراج"

def unknownErrorMsg : String := "خطأ غير معروف"

/-- The user-visible alerts emitted by `handleFileUpload`, as structured
data (each constructor corresponds to one `alert(...)` call and carries
the data interpolated into its message). -/
inductive UploadAlert where
  | extractionFailed (filename : String) (reason : String)
  | batchSummary (successful total : Nat)
  | batchFailed (reason : String)
  | requestFailed
deriving DecidableEq

/-- `fileResult.success && fileResult.data` (an object is truthy exactly
when present and non-null). -/
def fileResultAccepted (fr : FileResult) : Bool :=
  fr.success && fr.data.isSome

/-- The column pushed onto `newColumns` for an accepted per-file result. -/
def acceptedColumn (fr : FileResult) : PdfColumn :=
  { filename := fr.filename
    data := fr.data
    screenshot_path := jsHeadScreenshot fr.screenshot_paths
    error := none }

/-- One iteration of `result.results.forEach(...)`: accumulate the new
column or emit the per-file failure alert. -/
def processResultsStep (acc : List PdfColumn × List UploadAlert) (fr : FileResult) :
    List PdfColumn × List UploadAlert :=
  if fileResultAccepted fr then (acc.1 ++ [acceptedColumn fr], acc.2)
  else (acc.1,
        acc.2 ++ [UploadAlert.extractionFailed fr.filename
                    (jsOrDefault fr.error extractionFailMsg)])

/-- `handleFileUpload`, given the previous `pdfColumns` and the request
outcome: returns the new `pdfColumns` and the emitted alerts. -/
def handleFileUpload (prevColumns : List PdfColumn) (outcome : FetchOutcome BatchResponse) :
    List PdfColumn × List UploadAlert :=
  match outcome with
  | FetchOutcome.err => (prevColumns, [UploadAlert.requestFailed])
  | FetchOutcome.ok result =>
    if result.success then
      let processed := result.results.foldl processResultsStep ([], [])
      let alerts :=
        if result.successful_uploads > 0 then
          processed.2 ++ [UploadAlert.batchSummary result.successful_uploads result.total_files]
        else processed.2
      (if processed.1 ≠ [] then prevColumns ++ processed.1 else prevColumns, alerts)
    else (prevColumns, [UploadAlert.batchFailed (jsOrDefault result.error unknownErrorMsg)])

/-- A file of a selection event (`name` and declared MIME `type`). -/
structure JsFile where
  name : String
  type : String
deriving DecidableEq

/-- The user-visible alerts of `handleFileSelection` as structured data. -/
inductive SelectionAlert where
  | duplicateFiles (names : List String)
  | nonPdfFiles (names : List String)
deriving DecidableEq

/-- The selection-related component state (`selectedFiles`,
`showUploadConfirmation`). -/
structure SelectionState where
  selectedFiles : List JsFile
  showUploadConfirmation : Bool
deriving DecidableEq

/-- `pdfColumns.some(col => col.filename === file.name)`. -/
def isDuplicateFile (pdfColumns : List PdfColumn) (f : JsFile) : Bool :=
  pdfColumns.any (fun col => col.filename == f.name)

/-- `file.type !== 'application/pdf'`. -/
def isNonPdfFile (f : JsFile) : Bool :=
  !(f.type == "application/pdf")

/-- `handleFileSelection`: validate the selection before any network
call; on any duplicate filename or non-PDF file, leave the state
untouched and alert with the offending names; otherwise accept the whole
selection and ask for upload confirmation. -/
def handleFileSelection (pdfColumns : List PdfColumn) (st : SelectionState)
    (files : List JsFile) : SelectionState × Option SelectionAlert :=
  if files.length = 0 then (st, none)
  else if (files.filter (isDuplicateFile pdfColumns)).length > 0 then
    (st, some (SelectionAlert.duplicateFiles
                 ((files.filter (isDuplicateFile pdfColumns)).map JsFile.name)))
  else if (files.filter isNonPdfFile).length > 0 then
    (st, some (SelectionAlert.nonPdfFiles ((files.filter isNonPdfFile).map JsFile.name)))
  else ({ selectedFiles := files, showUploadConfirmation := true }, none)

/-!
## Evidence modal: correction submission
-/

/-- The correction-form state of `EvidenceModal` (`verifyMode`,
`submitted`). -/
structure ModalState where
  verifyMode : Option String
  submitted : Bool
deriving DecidableEq

/-- The body of the `correct_retained_earnings` response. -/
structure CorrectionResponse where
  status : String
  updated : Option UpdatedPayload
deriving DecidableEq

/-- The submit-button `onClick` of `EvidenceModal`: `setSubmitted(true)`
runs first, the request (whose outcome is `outcome`) is awaited inside a
`try`/`catch` that swallows every error, the row patch is forwarded only
on `status === 'success' && data.updated`, and `setVerifyMode(null)`
runs last. Returns the new state and the payload forwarded to
`window.updateRowAfterCorrection` (if any). -/
def submitCorrectionClick (st : ModalState) (outcome : FetchOutcome CorrectionResponse) :
    ModalState × Option UpdatedPayload :=
  let st1 : ModalState := { st with submitted := true }
  match outcome with
  | FetchOutcome.err => ({ st1 with verifyMode := none }, none)
  | FetchOutcome.ok data =>
    ({ st1 with verifyMode := none },
     if data.status == "success" && data.updated.isSome then data.updated else none)

/-- The "thanks, your correction was recorded" message is rendered
exactly when `submitted` is true (and the form is closed:
`{submitted && !verifyMode && <Typography>...</Typography>}`). -/
def confirmationShown (st : ModalState) : Bool :=
  st.submitted && !(truthy st.verifyMode)

/-!
## Concrete example inputs used by counterexamples and witnesses
-/

/-- An ownership row with the given symbol and no other data. -/
def mkOwn (s : String) : OwnershipRow :=
  ⟨some s, none, none, none, none⟩

/-- A unified row with the given id and retained-earnings value. -/
def mkRetRow (idv retained : String) : UnifiedRow :=
  ⟨none, none, none, none, none, retained, "", "", "", idv⟩

/-- Ownership batch for the C6 counterexample: twelve pairwise-distinct
symbols; index 1 carries symbol `"21"` and index 11 carries symbol
`"2"`, so both derived ids are `"211"`. -/
def exIdBatch : List OwnershipRow :=
  [mkOwn "a", mkOwn "21", mkOwn "c", mkOwn "d", mkOwn "e", mkOwn "f",
   mkOwn "g", mkOwn "h", mkOwn "i", mkOwn "j", mkOwn "k", mkOwn "2"]

/-- The C3 example rows: retained-earnings values
`["", "100", "abc", "-50", "100"]`, ids `r0 … r4` in input order. -/
def exSortRows : List UnifiedRow :=
  [mkRetRow "r0" "", mkRetRow "r1" "100", mkRetRow "r2" "abc",
   mkRetRow "r3" "-50", mkRetRow "r4" "100"]

/-- Ownership row whose symbol trims to the empty string. -/
def exOwnBlank : OwnershipRow := ⟨some " ", none, none, none, none⟩

/-- Earnings row whose symbol trims to the empty string but which carries
a retained-earnings value. -/
def exEarnBlank : EarningsRow := ⟨some " ", some "1", none, none, none⟩

/-- A merged row with symbol `"1050"`. -/
def exRow1050 : UnifiedRow :=
  ⟨some "1050", some "A", some "10", some "49", some "5", "7", "8", "2023", "", "10500"⟩

/-- A merged row with symbol `"2222"`. -/
def exRow2222 : UnifiedRow :=
  ⟨some "2222", some "B", some "20", some "49", some "5", "9", "9", "2023", "", "22221"⟩

/-- A correction payload that targets `"1050"` and carries only `value`
(the `retained_earnings` key is absent). -/
def exPayloadValueOnly : UpdatedPayload :=
  ⟨some "1050", none, some "9", none, none, none⟩

/-- A unified row whose `company_name` and `symbol` are both empty
strings. -/
def exBlankRow : UnifiedRow :=
  ⟨some "", some "", none, none, none, "", "", "", "", "x"⟩
theorem jsOrEmpty_some (s : String) : jsOrEmpty (some s) = s := by
  by_cases h : s = "" <;> simp [jsOrEmpty, truthy, jsStr, h]

theorem jsOrEmpty_none : jsOrEmpty none = "" := rfl

theorem startsWithL_iff (n h : List Char) :
    startsWithL n h = true ↔ ∃ rest, h = n ++ rest := by
  induction n generalizing h with
  | nil => simp [startsWithL]
  | cons a as ih =>
    cases h with
    | nil =>
      simp only [startsWithL]
      constructor
      · intro hx; cases hx
      · rintro ⟨rest, hrest⟩; cases hrest
    | cons b bs =>
      simp only [startsWithL, Bool.and_eq_true, decide_eq_true_eq, ih]
      constructor
      · rintro ⟨rfl, rest, rfl⟩; exact ⟨rest, rfl⟩
      · rintro ⟨rest, hrest⟩
        injection hrest with h1 h2
        exact ⟨h1.symm, rest, h2⟩

theorem inclL_iff (n h : List Char) :
    inclL n h = true ↔ ∃ pre post, h = pre ++ (n ++ post) := by
  induction h with
  | nil =>
    simp only [inclL, startsWithL_iff]
    constructor
    · rintro ⟨rest, hrest⟩; exact ⟨[], rest, hrest⟩
    · rintro ⟨pre, post, hp⟩
      rcases List.append_eq_nil.mp hp.symm with ⟨rfl, h2⟩
      rcases List.append_eq_nil.mp h2 with ⟨rfl, rfl⟩
      exact ⟨[], rfl⟩
  | cons c t ih =>
    simp only [inclL, Bool.or_eq_true, startsWithL_iff, ih]
    constructor
    · rintro (⟨rest, hrest⟩ | ⟨pre, post, hp⟩)
      · exact ⟨[], rest, hrest⟩
      · exact ⟨c :: pre, post, by simp [hp]⟩
    · rintro ⟨pre, post, hp⟩
      cases pre with
      | nil => exact Or.inl ⟨post, by simpa using hp⟩
      | cons p ps =>
        injection hp with h1 h2
        exact Or.inr ⟨ps, post, h2⟩

theorem strIncludes_iff (s term : String) :
    strIncludes s term = true ↔ SubstringOf term s := by
  simpa [strIncludes, SubstringOf] using inclL_iff term.data s.data

theorem strIncludes_empty (s : String) : strIncludes s "" = true := by
  have : SubstringOf "" s := ⟨[], s.data, by simp [SubstringOf]⟩
  exact (strIncludes_iff s "").mpr this

theorem dropWhile_head_false {p : Char → Bool} :
    ∀ {l : List Char} {a : Char} {t : List Char},
      List.dropWhile p l = a :: t → p a = false := by
  intro l
  induction l with
  | nil => intro a t h; cases h
  | cons b bs ih =>
    intro a t h
    by_cases hpb : p b = true
    · rw [List.dropWhile_cons_of_pos hpb] at h
      exact ih h
    · rw [List.dropWhile_cons_of_neg hpb] at h
      injection h with h1 _
      subst h1
      exact Bool.eq_false_iff.mpr hpb

theorem jsTrimList_idem (cs : List Char) : jsTrimList (jsTrimList cs) = jsTrimList cs := by
  unfold jsTrimList
  cases hB : (cs.dropWhile jsWhite).rdropWhile jsWhite with
  | nil => simp [List.rdropWhile_nil]
  | cons c t' =>
    obtain ⟨t, ht⟩ := List.rdropWhile_prefix jsWhite (l := cs.dropWhile jsWhite)
    rw [hB] at ht
    have hA : cs.dropWhile jsWhite = c :: (t' ++ t) := by
      rw [← ht]; simp
    have hc : jsWhite c = false := dropWhile_head_false hA
    have hid := List.rdropWhile_idempotent (p := jsWhite) (l := cs.dropWhile jsWhite)
    rw [hB] at hid
    rw [List.dropWhile_cons_of_neg (by simp [hc]), hid]

theorem jsTrim_idem (s : String) : jsTrim (jsTrim s) = jsTrim s := by
  unfold jsTrim
  rw [show (String.mk (jsTrimList s.data)).data = jsTrimList s.data from rfl, jsTrimList_idem]

/-!
## Claim C1 — join correctness of the reconciliation
-/

theorem lastMatchFold_acc (rs : List EarningsRow) (sym : String) (acc : Option EarningsRow) :
    rs.foldl (fun a r => if jsTrimmedSymbol r.company_symbol = sym then some r else a) acc =
      match rs.foldl (fun a r => if jsTrimmedSymbol r.company_symbol = sym then some r else a)
              none with
      | some e => some e
      | none => acc := by
  induction rs generalizing acc with
  | nil => simp
  | cons r rs ih =>
    simp only [List.foldl_cons]
    rw [ih (if jsTrimmedSymbol r.company_symbol = sym then some r else acc),
        ih (if jsTrimmedSymbol r.company_symbol = sym then some r else none)]
    cases rs.foldl (fun a r => if jsTrimmedSymbol r.company_symbol = sym then some r else a)
        none with
    | some e => rfl
    | none => by_cases hp : jsTrimmedSymbol r.company_symbol = sym <;> simp [hp]

theorem lastEarningsMatch_cons (r : EarningsRow) (rs : List EarningsRow) (sym : String) :
    lastEarningsMatch (r :: rs) sym =
      match lastEarningsMatch rs sym with
      | some e => some e
      | none => if jsTrimmedSymbol r.company_symbol = sym then some r else none := by
  unfold lastEarningsMatch
  simp only [List.foldl_cons]
  exact lastMatchFold_acc rs sym _

theorem buildEarningsMap_blank (E : List EarningsRow) : buildEarningsMap E "" = none := by
  suffices h : ∀ m : String → Option EarningsFields, m "" = none →
      (E.foldl earningsMapStep m) "" = none from h _ rfl
  induction E with
  | nil => intro m hm; exact hm
  | cons r rs ih =>
    intro m hm
    simp only [List.foldl_cons]
    apply ih
    unfold earningsMapStep
    by_cases ht : jsTrimmedSymbol r.company_symbol = ""
    · simp [ht, hm]
    · have hne : ¬("" = jsTrimmedSymbol r.company_symbol) := fun hh => ht hh.symm
      simp [ht, hne, hm]

theorem buildEarningsMap_eq_lastMatch (E : List EarningsRow) (sym : String) (hsym : sym ≠ "") :
    buildEarningsMap E sym = (lastEarningsMatch E sym).map toEarningsFields := by
  suffices h : ∀ m : String → Option EarningsFields,
      (E.foldl earningsMapStep m) sym =
        match lastEarningsMatch E sym with
        | some e => some (toEarningsFields e)
        | none => m sym by
    rw [buildEarningsMap, h (fun _ => none)]
    cases lastEarningsMatch E sym <;> rfl
  intro m
  induction E generalizing m with
  | nil => simp [lastEarningsMatch]
  | cons r rs ih =>
    simp only [List.foldl_cons]
    rw [ih, lastEarningsMatch_cons]
    cases hL : lastEarningsMatch rs sym with
    | some e => rfl
    | none =>
      by_cases hp : jsTrimmedSymbol r.company_symbol = sym
      · simp only [if_pos hp]
        simp [earningsMapStep, hp, hsym]
      · have hne : ¬(sym = jsTrimmedSymbol r.company_symbol) := fun hh => hp hh.symm
        simp only [if_neg hp]
        by_cases ht : jsTrimmedSymbol r.company_symbol = "" <;>
          simp [earningsMapStep, ht, hne]

theorem mergeAll_length (emap : String → Option EarningsFields) (n : Nat)
    (R : List OwnershipRow) : (mergeAll emap n R).length = R.length := by
  induction R generalizing n with
  | nil => rfl
  | cons r rs ih => simp [mergeAll, ih]

theorem mergeAll_getElem? (emap : String → Option EarningsFields) (n i : Nat)
    (R : List OwnershipRow) :
    (mergeAll emap n R)[i]? = (R[i]?).map (mergeRow emap (n + i)) := by
  induction R generalizing n i with
  | nil => simp [mergeAll]
  | cons r rs ih =>
    cases i with
    | zero => simp [mergeAll]
    | succ j =>
      simp only [mergeAll, List.getElem?_cons_succ, ih (n + 1) j]
      rw [show n + 1 + j = n + (j + 1) by omega]

theorem mergeRow_earningsPart (E : List EarningsRow) (idx : Nat) (ro : OwnershipRow) :
    (mergeRow (buildEarningsMap E) idx ro).earningsPart
      = joinedFields E (jsTrimmedSymbol ro.symbol) := by
  by_cases hsym : jsTrimmedSymbol ro.symbol = ""
  · simp [mergeRow, UnifiedRow.earningsPart, joinedFields, hsym, buildEarningsMap_blank,
      jsOrEmpty_none]
  · have hmap := buildEarningsMap_eq_lastMatch E _ hsym
    simp only [mergeRow, UnifiedRow.earningsPart, joinedFields, if_neg hsym, hmap]
    cases lastEarningsMatch E (jsTrimmedSymbol ro.symbol) with
    | none => simp [jsOrEmpty_none]
    | some e => simp [jsOrEmpty_some]

/-- **C1** (amended): the reconciliation produces exactly `|R|` unified
rows, in the same order as `R` (row `i` keeps row `i`'s ownership
fields); row `i`'s earnings fields equal those of the last earnings
record whose trimmed symbol is nonempty and equals row `i`'s trimmed
symbol, and are the empty string when no such record exists (in
particular whenever row `i`'s trimmed symbol is empty). Earnings records
never contribute rows of their own. -/
theorem fetchMerge_join_correct (R : List OwnershipRow) (E : List EarningsRow) :
    (fetchMerge R E).length = R.length ∧
    ∀ i : Nat,
      ((fetchMerge R E)[i]?).map UnifiedRow.ownPart = R[i]? ∧
      ((fetchMerge R E)[i]?).map UnifiedRow.earningsPart
        = (R[i]?).map fun ro => joinedFields E (jsTrimmedSymbol ro.symbol) := by
  refine ⟨mergeAll_length _ _ _, fun i => ?_⟩
  rw [fetchMerge, mergeAll_getElem?]
  cases R[i]? with
  | none => simp
  | some ro =>
    refine ⟨?_, ?_⟩
    · simp [mergeRow, UnifiedRow.ownPart]
    · simp [mergeRow_earningsPart]

/-- **C1 counterexample** (refutes the claim as frozen): for the
ownership row with symbol `" "` and the earnings row with symbol `" "`
and retained earnings `"1"`, both trimmed symbols are equal (both
empty), the earnings record *is* the (last) record whose trimmed symbol
equals the row's trimmed symbol and its retained-earnings field is
`"1"`, yet the merged row's retained-earnings field is `""` ≠ `"1"`:
the claim's lookup rule fails for blank trimmed symbols, which the
index-building step skips. -/
theorem fetchMerge_join_counterexample :
    jsTrimmedSymbol exEarnBlank.company_symbol = jsTrimmedSymbol exOwnBlank.symbol ∧
    lastEarningsMatch [exEarnBlank] (jsTrimmedSymbol exOwnBlank.symbol) = some exEarnBlank ∧
    jsOrEmpty exEarnBlank.retained_earnings = "1" ∧
    (fetchMerge [exOwnBlank] [exEarnBlank]).map UnifiedRow.retained_earnings = [""] ∧
    (fetchMerge [exOwnBlank] [exEarnBlank]).map UnifiedRow.retained_earnings
      ≠ [jsOrEmpty exEarnBlank.retained_earnings] := by
  decide

/-!
## Claim C2 — correction patch isolation
-/

theorem rowMatchesCorrection_iff (updated : UpdatedPayload) (row : UnifiedRow) :
    rowMatchesCorrection updated row = true ↔ specMatchesCorrection updated row := by
  simp [rowMatchesCorrection, specMatchesCorrection, Bool.and_eq_true, beq_iff_eq,
    and_assoc]

/-- **C2** (amended): `updateRowAfterCorrection` never inserts or removes
a row (length and order are preserved); every row keeps its ownership
fields and id byte-for-byte; a row whose symbol matches
`updated.company_symbol` gets exactly the four designated earnings
fields overwritten, `retained_earnings` falling back first to
`updated.value` and then to `""` when omitted, the other three falling
back to `""`; every non-matching row is left byte-for-byte identical. -/
theorem correction_patch_isolation (rows : List UnifiedRow) (updated : UpdatedPayload) :
    (updateRowAfterCorrection updated rows).length = rows.length ∧
    ∀ i : Nat, ∀ row : UnifiedRow, rows[i]? = some row →
      ∃ row' : UnifiedRow, (updateRowAfterCorrection updated rows)[i]? = some row' ∧
        row'.symbol = row.symbol ∧ row'.company_name = row.company_name ∧
        row'.foreign_ownership = row.foreign_ownership ∧
        row'.max_allowed = row.max_allowed ∧ row'.investor_limit = row.investor_limit ∧
        row'.id = row.id ∧
        (specMatchesCorrection updated row →
          row'.retained_earnings = jsOr2Empty updated.retained_earnings updated.value ∧
          row'.reinvested_earnings = jsOrEmpty updated.reinvested_earnings ∧
          row'.year = jsOrEmpty updated.year ∧ row'.error = jsOrEmpty updated.error) ∧
        (¬ specMatchesCorrection updated row → row' = row) := by
  refine ⟨by simp [updateRowAfterCorrection], fun i row hrow => ?_⟩
  refine ⟨patchRow updated row, ?_, ?_⟩
  · simp [updateRowAfterCorrection, hrow]
  · by_cases hm : specMatchesCorrection updated row
    · rw [patchRow, if_pos ((rowMatchesCorrection_iff updated row).mpr hm)]
      exact ⟨rfl, rfl, rfl, rfl, rfl, rfl, fun _ => ⟨rfl, rfl, rfl, rfl⟩,
        fun hnot => absurd hm hnot⟩
    · rw [patchRow, if_neg (fun hb => hm ((rowMatchesCorrection_iff updated row).mp hb))]
      exact ⟨rfl, rfl, rfl, rfl, rfl, rfl, fun hcon => absurd hcon hm, fun _ => rfl⟩

/-- Witness for C2: at a concrete two-row collection and a concrete
payload targeting `"1050"`, the non-matching row at index 1 is returned
unchanged. -/
theorem correction_patch_isolation_witness :
    (updateRowAfterCorrection exPayloadValueOnly [exRow1050, exRow2222])[1]? = some exRow2222 := by
  obtain ⟨row', h1, _, _, _, _, _, _, _, hnm⟩ :=
    (correction_patch_isolation [exRow1050, exRow2222] exPayloadValueOnly).2 1 exRow2222 rfl
  rw [h1, hnm (fun h => absurd h.2.2 (by decide))]

/-- **C2 counterexample** (refutes the claim as frozen): the payload
omits `retained_earnings` but carries `value = "9"`; the claim says an
omitted field falls back to the empty string, yet the matched row's
`retained_earnings` becomes `"9"` (the code falls back to
`updated.value` first). -/
theorem correction_patch_counterexample :
    exPayloadValueOnly.retained_earnings = none ∧
    (updateRowAfterCorrection exPayloadValueOnly [exRow1050]).map UnifiedRow.retained_earnings
      = ["9"] ∧
    ("9" : String) ≠ "" := by decide

/-!
## Claim C3 — sort correctness and stability
-/

theorem JsNum.leb_refl (a : JsNum) : a.leb a = true := by
  cases a <;> simp [JsNum.leb]

theorem JsNum.leb_total (a b : JsNum) : a.leb b = true ∨ b.leb a = true := by
  cases a <;> cases b <;> simp [JsNum.leb]
  exact le_total _ _

theorem JsNum.leb_trans {a b c : JsNum} (h1 : a.leb b = true) (h2 : b.leb c = true) :
    a.leb c = true := by
  cases a <;> cases b <;> cases c <;> simp_all [JsNum.leb]
  exact le_trans h1 h2

theorem insertDescByKey_perm (x : UnifiedRow) (l : List UnifiedRow) :
    List.Perm (insertDescByKey x l) (x :: l) := by
  induction l with
  | nil => exact List.Perm.refl _
  | cons y ys ih =>
    rw [insertDescByKey]
    by_cases h : JsNum.leb (sortKey y) (sortKey x) = true
    · rw [if_pos h]
    · rw [if_neg h]
      exact (List.Perm.cons y ih).trans (List.Perm.swap x y ys)

theorem insertDescByKey_pairwise (x : UnifiedRow) (l : List UnifiedRow)
    (hl : l.Pairwise (fun a b => JsNum.leb (sortKey b) (sortKey a) = true)) :
    (insertDescByKey x l).Pairwise (fun a b => JsNum.leb (sortKey b) (sortKey a) = true) := by
  induction l with
  | nil => simp [insertDescByKey]
  | cons y ys ih =>
    rw [insertDescByKey]
    rcases List.pairwise_cons.mp hl with ⟨hy, hys⟩
    by_cases h : JsNum.leb (sortKey y) (sortKey x) = true
    · rw [if_pos h]
      refine List.pairwise_cons.mpr ⟨?_, hl⟩
      intro z hz
      rcases List.mem_cons.mp hz with rfl | hz'
      · exact h
      · exact JsNum.leb_trans (hy z hz') h
    · rw [if_neg h]
      refine List.pairwise_cons.mpr ⟨?_, ih hys⟩
      intro z hz
      have hz2 := (insertDescByKey_perm x ys).mem_iff.mp hz
      rcases List.mem_cons.mp hz2 with rfl | hz'
      · rcases JsNum.leb_total (sortKey z) (sortKey y) with hx | hx
        · exact hx
        · exact absurd hx h
      · exact hy z hz'

theorem insertDescByKey_filter (x : UnifiedRow) (l : List UnifiedRow) (k : JsNum) :
    (insertDescByKey x l).filter (fun r => decide (sortKey r = k))
      = (x :: l).filter (fun r => decide (sortKey r = k)) := by
  induction l with
  | nil => rfl
  | cons y ys ih =>
    rw [insertDescByKey]
    by_cases h : JsNum.leb (sortKey y) (sortKey x) = true
    · rw [if_pos h]
    · rw [if_neg h]
      by_cases hxk : sortKey x = k
      · have hyk : ¬ sortKey y = k := by
          intro hyk
          exact h (by rw [hyk, hxk]; exact JsNum.leb_refl k)
        simp only [List.filter_cons, ih]
        simp [hxk, hyk]
      · simp only [List.filter_cons, ih]
        simp [hxk]

theorem sortByRetainedEarnings_perm (l : List UnifiedRow) :
    List.Perm (sortByRetainedEarnings l) l := by
  induction l with
  | nil => exact List.Perm.refl _
  | cons x xs ih => exact (insertDescByKey_perm x _).trans (List.Perm.cons x ih)

theorem sortByRetainedEarnings_pairwise (l : List UnifiedRow) :
    (sortByRetainedEarnings l).Pairwise (fun a b => JsNum.leb (sortKey b) (sortKey a) = true) := by
  induction l with
  | nil => simp [sortByRetainedEarnings]
  | cons x xs ih => exact insertDescByKey_pairwise x _ ih

theorem sortByRetainedEarnings_filter (l : List UnifiedRow) (k : JsNum) :
    (sortByRetainedEarnings l).filter (fun r => decide (sortKey r = k))
      = l.filter (fun r => decide (sortKey r = k)) := by
  induction l with
  | nil => rfl
  | cons x xs ih =>
    rw [show sortByRetainedEarnings (x :: xs) = insertDescByKey x (sortByRetainedEarnings xs)
      from rfl]
    rw [insertDescByKey_filter]
    simp only [List.filter_cons, ih]

/-- **C3** (amended): the view sorts descending by
`parseFloat(retained_earnings) || 0` (non-numeric or empty parses to 0);
the output is a permutation of the input; rows with equal parsed keys
retain their relative input order (the filtered sublist at any fixed key
is unchanged); and the example values `["", "100", "abc", "-50", "100"]`
yield the order `[100, 100, "" (0), "abc" (0), -50]` — the two zero-key
rows keep their input order and precede `-50`, which sorts last. -/
theorem sort_correct_and_stable (rows : List UnifiedRow) :
    (sortByRetainedEarnings rows).Pairwise
      (fun a b => JsNum.leb (sortKey b) (sortKey a) = true) ∧
    List.Perm (sortByRetainedEarnings rows) rows ∧
    (∀ k : JsNum, (sortByRetainedEarnings rows).filter (fun r => decide (sortKey r = k))
        = rows.filter (fun r => decide (sortKey r = k))) ∧
    (sortByRetainedEarnings exSortRows).map UnifiedRow.id = ["r1", "r4", "r0", "r2", "r3"] := by
  refine ⟨sortByRetainedEarnings_pairwise rows, sortByRetainedEarnings_perm rows,
    fun k => sortByRetainedEarnings_filter rows k, ?_⟩
  decide

/-- **C3 counterexample** (refutes the claim as frozen): on the claim's
own example input `["", "100", "abc", "-50", "100"]` the code produces
`["100", "100", "", "abc", "-50"]` — the zero-key rows `""` and `"abc"`
sort *before* `-50` under descending order, not after as the claim's
expected output `[100, 100, -50, "", "abc"]` states. -/
theorem sort_claim_counterexample :
    exSortRows.map UnifiedRow.retained_earnings = ["", "100", "abc", "-50", "100"] ∧
    (sortByRetainedEarnings exSortRows).map UnifiedRow.retained_earnings
      = ["100", "100", "", "abc", "-50"] ∧
    (sortByRetainedEarnings exSortRows).map UnifiedRow.retained_earnings
      ≠ ["100", "100", "-50", "", "abc"] := by decide

/-!
## Claim C4 — filter correctness
-/

theorem truthy_iff (o : Option String) : truthy o = true ↔ ∃ s, o = some s ∧ s ≠ "" := by
  cases o <;> simp [truthy]

theorem rowPassesFilter_iff (search : String) (row : UnifiedRow) :
    rowPassesFilter search row = true ↔
      ((∃ s, row.company_name = some s ∧ s ≠ "" ∧ SubstringOf search s) ∨
       (∃ s, row.symbol = some s ∧ s ≠ "" ∧ SubstringOf search s)) := by
  unfold rowPassesFilter
  simp only [Bool.or_eq_true, Bool.and_eq_true, truthy_iff, strIncludes_iff]
  constructor
  · rintro (⟨⟨s, hs, hne⟩, hsub⟩ | ⟨⟨s, hs, hne⟩, hsub⟩)
    · exact Or.inl ⟨s, hs, hne, by rwa [hs] at hsub⟩
    · exact Or.inr ⟨s, hs, hne, by rwa [hs] at hsub⟩
  · rintro (⟨s, hs, hne, hsub⟩ | ⟨s, hs, hne, hsub⟩)
    · exact Or.inl ⟨⟨s, hs, hne⟩, by rwa [hs]⟩
    · exact Or.inr ⟨⟨s, hs, hne⟩, by rwa [hs]⟩

/-- **C4** (amended): the filter returns a sublist of the input (row
order preserved, no duplication); a row appears in the output exactly
when it is an input row whose present and nonempty `company_name` or
`symbol` contains the term as a literal, case-sensitive substring (no
normalization); with the empty search term it keeps exactly the rows
with a nonempty `company_name` or a nonempty `symbol` — not necessarily
all rows. -/
theorem filter_correct (rows : List UnifiedRow) (search : String) :
    List.Sublist (rows.filter (rowPassesFilter search)) rows ∧
    (∀ row : UnifiedRow, row ∈ rows.filter (rowPassesFilter search) ↔
      row ∈ rows ∧
        ((∃ s, row.company_name = some s ∧ s ≠ "" ∧ SubstringOf search s) ∨
         (∃ s, row.symbol = some s ∧ s ≠ "" ∧ SubstringOf search s))) ∧
    rows.filter (rowPassesFilter "")
      = rows.filter (fun r => truthy r.company_name || truthy r.symbol) := by
  refine ⟨List.filter_sublist rows, fun row => ?_, ?_⟩
  · rw [List.mem_filter, rowPassesFilter_iff]
  · refine List.filter_congr fun r _ => ?_
    unfold rowPassesFilter
    rw [strIncludes_empty, strIncludes_empty, Bool.and_true, Bool.and_true]

/-- **C4 counterexample** (refutes "the empty search term returns all
rows"): a row whose `company_name` and `symbol` are both the empty
string fails the truthiness guard and is dropped even for the empty
search term. -/
theorem filter_empty_search_counterexample :
    [exBlankRow].filter (rowPassesFilter "") = [] ∧
    [exBlankRow].filter (rowPassesFilter "") ≠ [exBlankRow] := by decide

/-!
## Claim C5 — no-data sentinel normalization
-/

/-- **C5** (amended): the empty string, the literal strings `"null"` and
`"undefined"`, and an absent field all render identically as the
localized "no data" label, and none of them is ever rendered as a
formatted number; in sorting, however, each of them parses to 0
(`parseFloat(v) || 0`), tying with genuine zero values. -/
theorem no_data_sentinel_normalization :
    renderEarningsCell none = CellRender.noData ∧
    renderEarningsCell (some "") = CellRender.noData ∧
    renderEarningsCell (some "null") = CellRender.noData ∧
    renderEarningsCell (some "undefined") = CellRender.noData ∧
    (∀ n : JsNum,
      renderEarningsCell none ≠ CellRender.numeric n ∧
      renderEarningsCell (some "") ≠ CellRender.numeric n ∧
      renderEarningsCell (some "null") ≠ CellRender.numeric n ∧
      renderEarningsCell (some "undefined") ≠ CellRender.numeric n) ∧
    jsNumOrZero (jsParseFloat "") = JsNum.fin 0 ∧
    jsNumOrZero (jsParseFloat "null") = JsNum.fin 0 ∧
    jsNumOrZero (jsParseFloat "undefined") = JsNum.fin 0 := by
  refine ⟨by decide, by decide, by decide, by decide, fun n => ?_, by decide, by decide,
    by decide⟩
  have h1 : renderEarningsCell none = CellRender.noData := by decide
  have h2 : renderEarningsCell (some "") = CellRender.noData := by decide
  have h3 : renderEarningsCell (some "null") = CellRender.noData := by decide
  have h4 : renderEarningsCell (some "undefined") = CellRender.noData := by decide
  rw [h1, h2, h3, h4]
  exact ⟨by simp, by simp, by simp, by simp⟩

/-- **C5 counterexample** (refutes "none of these four is treated as a
valid numeric 0 in sorting"): the sort key of a row whose
`retained_earnings` is `""` is the number 0, equal to the sort key of a
row holding the genuine numeral `"0"` — the sort comparator treats the
sentinel exactly as the number 0. -/
theorem no_data_sentinel_counterexample :
    sortKey (mkRetRow "empty" "") = JsNum.fin 0 ∧
    sortKey (mkRetRow "zero" "0") = JsNum.fin 0 ∧
    sortKey (mkRetRow "empty" "") = sortKey (mkRetRow "zero" "0") := by decide

/-!
## Claim C6 — row-identity invariant
-/

theorem string_append_ne_of_ne_of_length_eq {s t a b : String} (hne : s ≠ t)
    (hlen : s.length = t.length) : s ++ a ≠ t ++ b := by
  intro h
  apply hne
  have hd : s.data ++ a.data = t.data ++ b.data := by
    have h2 := congrArg String.data h
    simpa using h2
  have hl : s.data.length = t.data.length := hlen
  cases s with
  | mk sd =>
    cases t with
    | mk td =>
      have h3 : sd = td := by simpa using List.append_inj_left hd hl
      rw [h3]

theorem mem_mergeAll_map_id (emap : String → Option EarningsFields) (n : Nat)
    (S : List OwnershipRow) (x : String) :
    x ∈ (mergeAll emap n S).map (fun u => u.id) →
      ∃ r ∈ S, ∃ m : Nat, x = jsTrimmedSymbol r.symbol ++ toString m := by
  induction S generalizing n with
  | nil => simp [mergeAll]
  | cons r rs ih =>
    intro hx
    simp only [mergeAll, List.map_cons, List.mem_cons] at hx
    rcases hx with rfl | hx
    · exact ⟨r, List.mem_cons_self r rs, n, rfl⟩
    · rcases ih (n + 1) hx with ⟨r', hr', m, hm⟩
      exact ⟨r', List.mem_cons_of_mem r hr', m, hm⟩

/-- **C6** (amended): if the trimmed symbols of an ownership batch are
pairwise distinct *and all of the same length*, the derived rowIds
(trimmed symbol concatenated with the decimal source index) are pairwise
distinct across the batch; distinctness of the symbols alone is not
enough — see the counterexample. -/
theorem rowId_unique (R : List OwnershipRow) (E : List EarningsRow) (L : Nat)
    (hdist : (R.map (fun r => jsTrimmedSymbol r.symbol)).Nodup)
    (hlen : ∀ r ∈ R, (jsTrimmedSymbol r.symbol).length = L) :
    ((fetchMerge R E).map (fun u => u.id)).Nodup := by
  rw [fetchMerge]
  generalize buildEarningsMap E = emap
  generalize hn : 0 = n
  clear hn
  induction R generalizing n with
  | nil => simp [mergeAll]
  | cons r rs ih =>
    simp only [List.map_cons, List.nodup_cons] at hdist
    simp only [mergeAll, List.map_cons, List.nodup_cons]
    refine ⟨?_, ih hdist.2 (fun r' hr' => hlen r' (List.mem_cons_of_mem r hr')) (n + 1)⟩
    intro hmem
    rcases mem_mergeAll_map_id emap (n + 1) rs _ hmem with ⟨r', hr', m, hm⟩
    have hne : jsTrimmedSymbol r.symbol ≠ jsTrimmedSymbol r'.symbol := by
      intro he
      exact hdist.1 (he ▸ List.mem_map_of_mem (fun q => jsTrimmedSymbol q.symbol) hr')
    have hlr : (jsTrimmedSymbol r.symbol).length = (jsTrimmedSymbol r'.symbol).length := by
      rw [hlen r (List.mem_cons_self r rs), hlen r' (List.mem_cons_of_mem r hr')]
    exact string_append_ne_of_ne_of_length_eq hne hlr hm

/-- Witness for C6: two symbols of equal length produce distinct ids. -/
theorem rowId_unique_witness :
    ((fetchMerge [mkOwn "10", mkOwn "20"] []).map (fun u => u.id)).Nodup :=
  rowId_unique [mkOwn "10", mkOwn "20"] [] 2 (by decide) (by decide)

/-- **C6 counterexample** (refutes the claim as frozen): in a batch of
twelve pairwise-distinct symbols, the row with symbol `"21"` at source
index 1 and the row with symbol `"2"` at source index 11 both derive the
rowId `"211"`, so the rowIds are not pairwise distinct although every
symbol is. -/
theorem rowId_counterexample :
    (exIdBatch.map (fun r => r.symbol)).Nodup ∧
    (exIdBatch.map (fun r => jsTrimmedSymbol r.symbol)).Nodup ∧
    ¬ ((fetchMerge exIdBatch []).map (fun u => u.id)).Nodup := by decide

/-!
## Claim C7 — source-adapter degradation
-/

/-- **C7**: `loadForeignOwnership` returns the parsed rows on success
and the empty sequence on any failure; `loadReinvestedEarnings` returns
the empty sequence on any failure, keeps exactly the raw rows whose
`company_symbol` field is present, nonempty and nonblank after
trimming, trims every header key and every field value of the kept rows
(every key and value of an output row is trim-fixed), and neither
adapter can throw — both are total functions of the request outcome. -/
theorem source_adapters_degrade (dataJ : List OwnershipRow)
    (data : List (List (String × String))) :
    loadForeignOwnership FetchOutcome.err = [] ∧
    loadForeignOwnership (FetchOutcome.ok dataJ) = dataJ ∧
    loadReinvestedEarnings FetchOutcome.err = [] ∧
    (∀ row' : List (String × String),
      row' ∈ loadReinvestedEarnings (FetchOutcome.ok data) ↔
        ∃ raw ∈ data, csvRowKept raw = true ∧ row' = cleanCsvRow raw) ∧
    (∀ row' ∈ loadReinvestedEarnings (FetchOutcome.ok data),
      ∀ kv ∈ row', jsTrim kv.1 = kv.1 ∧ jsTrim kv.2 = kv.2) ∧
    (∀ raw : List (String × String), csvRowKept raw = true ↔
      ∃ v, csvField raw "company_symbol" = some v ∧ v ≠ "" ∧ jsTrim v ≠ "") := by
  have hmem : ∀ row' : List (String × String),
      row' ∈ loadReinvestedEarnings (FetchOutcome.ok data) ↔
        ∃ raw ∈ data, csvRowKept raw = true ∧ row' = cleanCsvRow raw := by
    intro row'
    cases data with
    | nil => simp [loadReinvestedEarnings]
    | cons d ds =>
      rw [show loadReinvestedEarnings (FetchOutcome.ok (d :: ds))
            = if (d :: ds).length > 0 then ((d :: ds).filter csvRowKept).map cleanCsvRow
              else [] from rfl,
          if_pos (by simp)]
      simp only [List.mem_map, List.mem_filter]
      constructor
      · rintro ⟨raw, ⟨hmem, hkept⟩, heq⟩
        exact ⟨raw, hmem, hkept, heq.symm⟩
      · rintro ⟨raw, hmem, hkept, heq⟩
        exact ⟨raw, ⟨hmem, hkept⟩, heq.symm⟩
  refine ⟨rfl, rfl, rfl, hmem, ?_, ?_⟩
  · intro row' hrow' kv hkv
    rcases (hmem row').mp hrow' with ⟨raw, _, _, heq⟩
    subst heq
    rcases List.mem_map.mp hkv with ⟨kv₀, _, hkv₀⟩
    subst hkv₀
    refine ⟨jsTrim_idem kv₀.1, ?_⟩
    unfold cleanCsvValue
    by_cases hv : kv₀.2 = ""
    · simp only [hv]
      rw [if_neg (by simp)]
      decide
    · rw [if_pos hv]
      exact jsTrim_idem kv₀.2
  · intro raw
    unfold csvRowKept
    cases hf : csvField raw "company_symbol" with
    | none => simp [truthy]
    | some v =>
      simp only [truthy, jsStr, Bool.and_eq_true, Bool.not_eq_true', beq_eq_false_iff_ne,
        decide_eq_true_eq]
      constructor
      · rintro ⟨h1, h2⟩
        exact ⟨v, rfl, h1, h2⟩
      · rintro ⟨w, hw, h1, h2⟩
        injection hw with hw
        subst hw
        exact ⟨h1, h2⟩

/-- Witness for C7: a concrete CSV row with an untrimmed value is kept
and cleaned, while a blank-symbol row is dropped. -/
theorem source_adapters_degrade_witness :
    [("company_symbol", "11")] ∈ loadReinvestedEarnings
      (FetchOutcome.ok [[("company_symbol", " 11 ")], [("company_symbol", " ")]]) := by
  have h := (source_adapters_degrade []
    [[("company_symbol", " 11 ")], [("company_symbol", " ")]]).2.2.2.1
  exact (h [("company_symbol", "11")]).mpr
    ⟨[("company_symbol", " 11 ")], by decide, by decide, by decide⟩

/-!
## Claim C8 — upload batch partial success
-/

theorem processResults_foldl (frs : List FileResult) (cols : List PdfColumn)
    (alerts : List UploadAlert) :
    frs.foldl processResultsStep (cols, alerts) =
      (cols ++ frs.filterMap
         (fun fr => if fileResultAccepted fr then some (acceptedColumn fr) else none),
       alerts ++ frs.filterMap
         (fun fr => if fileResultAccepted fr then none
          else some (UploadAlert.extractionFailed fr.filename
                       (jsOrDefault fr.error extractionFailMsg)))) := by
  induction frs generalizing cols alerts with
  | nil => simp
  | cons fr frs ih =>
    simp only [List.foldl_cons, List.filterMap_cons]
    by_cases h : fileResultAccepted fr = true
    · rw [show processResultsStep (cols, alerts) fr
          = (cols ++ [acceptedColumn fr], alerts) by
            unfold processResultsStep; rw [if_pos h]]
      rw [ih]
      simp [h]
    · rw [show processResultsStep (cols, alerts) fr
          = (cols, alerts ++ [UploadAlert.extractionFailed fr.filename
              (jsOrDefault fr.error extractionFailMsg)]) by
            unfold processResultsStep; rw [if_neg h]]
      rw [ih]
      simp [h]

/-- **C8**: on a success-tagged batch response, the new collection is
exactly the previous one with the accepted per-file results (those with
`success` set and a `data` payload) appended in response order; every
failed entry produces its own alert carrying its filename and its
reason (`error`, defaulting to the generic extraction-failure text); the
presence of failures never blocks the accepted entries from being
appended. -/
theorem upload_batch_partial_success (prev : List PdfColumn) (resp : BatchResponse)
    (hs : resp.success = true) :
    (handleFileUpload prev (FetchOutcome.ok resp)).1 =
      prev ++ resp.results.filterMap
        (fun fr => if fileResultAccepted fr then some (acceptedColumn fr) else none) ∧
    (handleFileUpload prev (FetchOutcome.ok resp)).2 =
      resp.results.filterMap
        (fun fr => if fileResultAccepted fr then none
         else some (UploadAlert.extractionFailed fr.filename
                      (jsOrDefault fr.error extractionFailMsg)))
        ++ (if resp.successful_uploads > 0 then
              [UploadAlert.batchSummary resp.successful_uploads resp.total_files]
            else []) ∧
    (∀ fr ∈ resp.results, fileResultAccepted fr = false →
      UploadAlert.extractionFailed fr.filename (jsOrDefault fr.error extractionFailMsg)
        ∈ (handleFileUpload prev (FetchOutcome.ok resp)).2) := by
  have hok : handleFileUpload prev (FetchOutcome.ok resp) =
      if resp.success then
        (if (resp.results.foldl processResultsStep ([], [])).1 ≠ [] then
           prev ++ (resp.results.foldl processResultsStep ([], [])).1
         else prev,
         if resp.successful_uploads > 0 then
           (resp.results.foldl processResultsStep ([], [])).2
             ++ [UploadAlert.batchSummary resp.successful_uploads resp.total_files]
         else (resp.results.foldl processResultsStep ([], [])).2)
      else (prev, [UploadAlert.batchFailed (jsOrDefault resp.error unknownErrorMsg)]) := rfl
  have hunfold : handleFileUpload prev (FetchOutcome.ok resp) =
      (prev ++ resp.results.filterMap
         (fun fr => if fileResultAccepted fr then some (acceptedColumn fr) else none),
       resp.results.filterMap
         (fun fr => if fileResultAccepted fr then none
          else some (UploadAlert.extractionFailed fr.filename
                       (jsOrDefault fr.error extractionFailMsg)))
         ++ (if resp.successful_uploads > 0 then
               [UploadAlert.batchSummary resp.successful_uploads resp.total_files]
             else [])) := by
    rw [hok, if_pos hs]
    simp only [processResults_foldl, List.nil_append]
    apply Prod.ext
    · by_cases hne : resp.results.filterMap
          (fun fr => if fileResultAccepted fr then some (acceptedColumn fr) else none) = []
      · simp [hne]
      · simp [hne]
    · by_cases hu : resp.successful_uploads > 0
      · simp [hu]
      · simp [hu]
  rw [hunfold]
  refine ⟨rfl, rfl, fun fr hfr hfail => ?_⟩
  apply List.mem_append_left
  exact List.mem_filterMap.mpr ⟨fr, hfr, by rw [hfail]; rfl⟩

/-- Witness for C8: a concrete two-file batch in which the first file
succeeds and the second fails; exactly the successful file is appended
and the failure is reported with its filename and reason. -/
theorem upload_batch_partial_success_witness :
    (handleFileUpload []
        (FetchOutcome.ok ⟨true, none, 2, 1,
          [⟨"ok.pdf", true, some [("DATE", "1")], none, none⟩,
           ⟨"bad.pdf", false, none, some "broken", none⟩]⟩)).1
      = [⟨"ok.pdf", some [("DATE", "1")], none, none⟩] ∧
    UploadAlert.extractionFailed "bad.pdf" "broken"
      ∈ (handleFileUpload []
          (FetchOutcome.ok ⟨true, none, 2, 1,
            [⟨"ok.pdf", true, some [("DATE", "1")], none, none⟩,
             ⟨"bad.pdf", false, none, some "broken", none⟩]⟩)).2 := by
  have h := upload_batch_partial_success []
    ⟨true, none, 2, 1,
      [⟨"ok.pdf", true, some [("DATE", "1")], none, none⟩,
       ⟨"bad.pdf", false, none, some "broken", none⟩]⟩ rfl
  refine ⟨?_, ?_⟩
  · rw [h.1]; decide
  · have h2 := h.2.2 ⟨"bad.pdf", false, none, some "broken", none⟩ (by decide) (by decide)
    have h3 : jsOrDefault (some "broken") extractionFailMsg = "broken" := by decide
    rw [h3] at h2
    exact h2

/-!
## Claim C9 — all-or-nothing selection rejection
-/

/-- **C9**: if the selection contains at least one file whose name
duplicates an already-uploaded filename, or at least one file whose
declared type is not `application/pdf`, the handler leaves the
component state untouched — zero files enter the pending selection and
the upload-confirmation step (the only path to a network call) is not
opened — and alerts with the offending filenames (the duplicate names
when any duplicate exists, otherwise the non-PDF names); only a
nonempty selection with no duplicates and only PDF files is accepted,
in full. The last two conjuncts tie the code's offending-file filters
to the claim's wording. -/
theorem selection_all_or_nothing (cols : List PdfColumn) (st : SelectionState)
    (files : List JsFile) :
    (files.filter (isDuplicateFile cols) ≠ [] ∨ files.filter isNonPdfFile ≠ [] →
      (handleFileSelection cols st files).1 = st) ∧
    (files.filter (isDuplicateFile cols) ≠ [] →
      (handleFileSelection cols st files).2
        = some (SelectionAlert.duplicateFiles
            ((files.filter (isDuplicateFile cols)).map JsFile.name))) ∧
    (files.filter (isDuplicateFile cols) = [] → files.filter isNonPdfFile ≠ [] →
      (handleFileSelection cols st files).2
        = some (SelectionAlert.nonPdfFiles ((files.filter isNonPdfFile).map JsFile.name))) ∧
    (files ≠ [] → files.filter (isDuplicateFile cols) = [] →
      files.filter isNonPdfFile = [] →
      handleFileSelection cols st files = (⟨files, true⟩, none)) ∧
    (∀ f : JsFile, f ∈ files.filter (isDuplicateFile cols) ↔
      f ∈ files ∧ ∃ c ∈ cols, c.filename = f.name) ∧
    (∀ f : JsFile, f ∈ files.filter isNonPdfFile ↔
      f ∈ files ∧ f.type ≠ "application/pdf") := by
  have hfilters : ∀ f : JsFile,
      (f ∈ files.filter (isDuplicateFile cols) ↔
        f ∈ files ∧ ∃ c ∈ cols, c.filename = f.name) ∧
      (f ∈ files.filter isNonPdfFile ↔ f ∈ files ∧ f.type ≠ "application/pdf") := by
    intro f
    constructor
    · rw [List.mem_filter]
      simp [isDuplicateFile, List.any_eq_true]
    · rw [List.mem_filter]
      simp [isNonPdfFile]
  cases files with
  | nil =>
    refine ⟨?_, ?_, ?_, ?_, fun f => (hfilters f).1, fun f => (hfilters f).2⟩
    · rintro (h | h) <;> simp at h
    · intro h; simp at h
    · intro _ h; simp at h
    · intro h; exact absurd rfl h
  | cons f fs =>
    have hlen : ¬((f :: fs).length = 0) := by simp
    have hsel : handleFileSelection cols st (f :: fs) =
        (if ((f :: fs).filter (isDuplicateFile cols)).length > 0 then
          (st, some (SelectionAlert.duplicateFiles
            (((f :: fs).filter (isDuplicateFile cols)).map JsFile.name)))
        else if ((f :: fs).filter isNonPdfFile).length > 0 then
          (st, some (SelectionAlert.nonPdfFiles
            (((f :: fs).filter isNonPdfFile).map JsFile.name)))
        else (⟨f :: fs, true⟩, none)) := by
      unfold handleFileSelection
      rw [if_neg hlen]
    refine ⟨?_, ?_, ?_, ?_, fun g => (hfilters g).1, fun g => (hfilters g).2⟩
    · rintro (hdup | hpdf)
      · rw [hsel, if_pos (by simpa [List.length_pos] using hdup)]
      · rw [hsel]
        by_cases hdup : ((f :: fs).filter (isDuplicateFile cols)).length > 0
        · rw [if_pos hdup]
        · rw [if_neg hdup, if_pos (by simpa [List.length_pos] using hpdf)]
    · intro hdup
      rw [hsel, if_pos (by simpa [List.length_pos] using hdup)]
    · intro hdup hpdf
      rw [hsel, if_neg (by simp [hdup]), if_pos (by simpa [List.length_pos] using hpdf)]
    · intro _ hdup hpdf
      rw [hsel, if_neg (by simp [hdup]), if_neg (by simp [hpdf])]

/-- Witness for C9: a concrete selection containing one fresh file and
one file whose name collides with an already-uploaded one is rejected
wholesale, the duplicate's name is reported, and the state (pending
selection and confirmation flag) is unchanged. -/
theorem selection_all_or_nothing_witness :
    (handleFileSelection [⟨"a.pdf", none, none, none⟩] ⟨[], false⟩
        [⟨"x.pdf", "application/pdf"⟩, ⟨"a.pdf", "application/pdf"⟩]).1 = ⟨[], false⟩ ∧
    (handleFileSelection [⟨"a.pdf", none, none, none⟩] ⟨[], false⟩
        [⟨"x.pdf", "application/pdf"⟩, ⟨"a.pdf", "application/pdf"⟩]).2
      = some (SelectionAlert.duplicateFiles ["a.pdf"]) := by
  have h := selection_all_or_nothing [⟨"a.pdf", none, none, none⟩] ⟨[], false⟩
    [⟨"x.pdf", "application/pdf"⟩, ⟨"a.pdf", "application/pdf"⟩]
  refine ⟨h.1 (Or.inl (by decide)), ?_⟩
  rw [h.2.1 (by decide)]
  decide

/-!
## Claim C10 — correction submission always reports success
-/

/-- **C10** (implicit claim, confirmed): the submit handler sets
`submitted` to true unconditionally before the request settles and
never resets it: for every prior modal state and every request outcome
(network failure, a non-success status, or a missing `updated` payload)
the resulting state has `submitted = true` and the form closed, so the
"correction recorded" confirmation message is shown regardless of
whether the correction actually succeeded; the row patch is forwarded
only on `status === 'success'` with a present payload. -/
theorem correction_always_reports_success (st : ModalState)
    (outcome : FetchOutcome CorrectionResponse) :
    (submitCorrectionClick st outcome).1.submitted = true ∧
    (submitCorrectionClick st outcome).1.verifyMode = none ∧
    confirmationShown (submitCorrectionClick st outcome).1 = true ∧
    (submitCorrectionClick st FetchOutcome.err).2 = none ∧
    (∀ resp : CorrectionResponse, resp.status ≠ "success" →
      (submitCorrectionClick st (FetchOutcome.ok resp)).2 = none) := by
  refine ⟨?_, ?_, ?_, rfl, ?_⟩
  · cases outcome <;> rfl
  · cases outcome <;> rfl
  · cases outcome <;> simp [submitCorrectionClick, confirmationShown, truthy]
  · intro resp hresp
    have hb : (resp.status == "success") = false := by
      simp [hresp]
    simp [submitCorrectionClick, hb]

/-- Witness for C10: at a concrete state and a concrete non-success
response, the confirmation flag is set and shown while no patch is
forwarded. -/
theorem correction_always_reports_success_witness :
    (submitCorrectionClick ⟨some "form", false⟩
        (FetchOutcome.ok ⟨"error", none⟩)).1.submitted = true ∧
    confirmationShown (submitCorrectionClick ⟨some "form", false⟩
        (FetchOutcome.ok ⟨"error", none⟩)).1 = true ∧
    (submitCorrectionClick ⟨some "form", false⟩
        (FetchOutcome.ok ⟨"error", none⟩)).2 = none := by
  have h := correction_always_reports_success ⟨some "form", false⟩
    (FetchOutcome.ok ⟨"error", none⟩)
  exact ⟨h.1, h.2.2.1, h.2.2.2.2 ⟨"error", none⟩ (by decide)⟩
